import Mathlib

/-!
Verification of the progressplanner analytics/forecasting engine.

Shallow embedding of the core computations of `src/inventory/utils.py` and
`src/inventory/views.py`:

* `calculate_variant_sales_speed_details` (sales-velocity estimator),
* `compute_variant_projection` (stock-projection simulator),
* `compute_product_confidence` (confidence scorer),
* `get_restock_alerts` / `_annotate_variant_stock` (restock-alert classifier),
* `_determine_price_bucket` (price-bucket classifier).

Modelling conventions:

* Python `Decimal`/`float` arithmetic is modelled by `ℚ` (exact rationals).
* Calendar dates used by the velocity estimator are modelled as integers
  (days since an epoch that falls on a Monday), so `d.weekday() = d % 7`
  and a week start is `d - d % 7`.
* Calendar dates used by the projection are modelled as `(month, day)`
  pairs, where `month` is a month index (year*12+month); `date.replace(day=1)`
  becomes the month index, and date comparison is lexicographic.
* Python `round` (and `round(Decimal, 1)`) rounds half to even; it is
  modelled by `rheZ` / `pyRound1`.
* Django querysets become explicit lists; `None`-able columns become
  `Option`.
-/

/-- Python's `round` to an integer: round half to even. -/
def rheZ (q : ℚ) : ℤ :=
  if q - ⌊q⌋ < 1/2 then ⌊q⌋
  else if 1/2 < q - ⌊q⌋ then ⌊q⌋ + 1
  else if ⌊q⌋ % 2 = 0 then ⌊q⌋ else ⌊q⌋ + 1

/-- Python's `round(x, 1)`: round half to even at one decimal place. -/
def pyRound1 (q : ℚ) : ℚ := (rheZ (q * 10) : ℚ) / 10

/-! ## Sales Velocity Estimator (`calculate_variant_sales_speed_details`) -/

/-- An `InventorySnapshot` row: `date` (day index), `inventory_count`. -/
structure Snap where
  date : ℤ
  inventory_count : ℤ
  deriving DecidableEq

/-- A `Sale` row as used by the estimator: `date` (day index), `sold_quantity`. -/
structure SaleRow where
  date : ℤ
  sold_quantity : ℤ
  deriving DecidableEq

inductive EvKind
  | snapshot
  | sale
  deriving DecidableEq

/-- An inventory-tracking event: `(date, type, qty)` as in `_speed_for_window`. -/
structure Event where
  date : ℤ
  kind : EvKind
  qty : ℤ
  deriving DecidableEq

/-- Stable insertion (by date) used to model Python's stable `events.sort`. -/
def insertEvent (e : Event) : List Event → List Event
  | [] => [e]
  | x :: xs => if x.date < e.date then x :: insertEvent e xs else e :: x :: xs

/-- Stable sort by date (insertion sort), modelling
`events.sort(key=lambda x: x[0])`. -/
def sortEvents (l : List Event) : List Event := l.foldr insertEvent []

/-- The event list of `_speed_for_window`: snapshot events, then sale events,
stably sorted by date (so snapshots precede sales on equal dates). -/
def eventsOf (snaps : List Snap) (sales : List SaleRow) : List Event :=
  sortEvents
    (snaps.map (fun s => ⟨s.date, .snapshot, s.inventory_count⟩)
      ++ sales.map (fun s => ⟨s.date, .sale, s.sold_quantity⟩))

/-- One step of the inventory-tracking loop: events dated at or before the
week end `we` update the running state `(current_inv, seen_snapshot)`. -/
def invStep (we : ℤ) (st : ℤ × Bool) (e : Event) : ℤ × Bool :=
  if e.date ≤ we then
    match e.kind with
    | .snapshot => (e.qty, true)
    | .sale => (st.1 - e.qty, st.2)
  else st

/-- Model of `inventory_by_week[ws]`: the clamped running inventory at the end of the
week starting at `ws` (`None` while no snapshot has been seen). -/
def inventoryAtWeek (evs : List Event) (ws : ℤ) : Option ℤ :=
  let st := evs.foldl (invStep (ws + 6)) (0, false)
  if st.2 then some (max st.1 0) else none

/-- Model of `date - timedelta(days=date.weekday())` for an epoch-Monday day index. -/
def weekStartOf (d : ℤ) : ℤ := d - d % 7

/-- Model of `sales_by_week[ws]`: total `sold_quantity` of sales in the week starting
at `ws`. -/
def soldInWeek (sales : List SaleRow) (ws : ℤ) : ℤ :=
  ((sales.filter (fun s => weekStartOf s.date == ws)).map
    (fun s => s.sold_quantity)).sum

/-- Whether a week counts toward the average: `if sold or had_stock`, where
`had_stock` falls back to `sold > 0` while no snapshot has been seen. -/
def weekCounted (evs : List Event) (sales : List SaleRow) (ws : ℤ) : Bool :=
  let sold := soldInWeek sales ws
  let hadStock :=
    match inventoryAtWeek evs ws with
    | none => decide (0 < sold)
    | some inv => decide (0 < inv)
  decide (sold ≠ 0) || hadStock

/-- The `total`/`periods` accumulation loop over the window's weeks. -/
def tallyWeeks (evs : List Event) (sales : List SaleRow) (wsList : List ℤ) :
    ℤ × ℕ :=
  wsList.foldl
    (fun acc ws =>
      if weekCounted evs sales ws then (acc.1 + soldInWeek sales ws, acc.2 + 1)
      else acc)
    (0, 0)

/-- Result of `calculate_variant_sales_speed_details`. -/
structure SpeedDetails where
  speed : ℚ
  total_sold : ℤ
  periods : ℕ
  deriving DecidableEq

/-- The constant `WEEKS_PER_MONTH = 365.25 / 12 / 7`. -/
def weeksPerMonth : ℚ := 36525 / 100 / 12 / 7

/-- The list of week starts of a window of `windowWeeks` weeks ending at the
week containing `today`. -/
def weekStartsList (today : ℤ) (windowWeeks : ℕ) : List ℤ :=
  (List.range windowWeeks).map
    (fun i : ℕ =>
      (weekStartOf today - 7 * ((windowWeeks : ℤ) - 1)) + 7 * (i : ℤ))

/-- Model of `_speed_for_window(window_weeks)` of
`calculate_variant_sales_speed_details`. -/
def speedForWindow (snaps : List Snap) (sales : List SaleRow) (today : ℤ)
    (windowWeeks : ℕ) : SpeedDetails :=
  let evs := eventsOf snaps sales
  let tp := tallyWeeks evs sales (weekStartsList today windowWeeks)
  if tp.2 = 0 then ⟨0, 0, 0⟩
  else ⟨((tp.1 : ℚ) / (tp.2 : ℚ)) * weeksPerMonth, tp.1, tp.2⟩

/-- Model of `calculate_variant_sales_speed_details(variant, weeks, today,
fallback_weeks)`: primary window, then the fallback window when the primary
speed is exactly 0 and `fallback_weeks` is truthy and larger. -/
def calculateVariantSalesSpeedDetails (snaps : List Snap)
    (sales : List SaleRow) (weeks : ℕ) (today : ℤ) (fallbackWeeks : ℕ) :
    SpeedDetails :=
  let r := speedForWindow snaps sales today weeks
  if r.speed = 0 ∧ fallbackWeeks ≠ 0 ∧ weeks < fallbackWeeks then
    speedForWindow snaps sales today fallbackWeeks
  else r

/-- Model of `calculate_variant_sales_speed`: the `speed` field only. -/
def calculateVariantSalesSpeed (snaps : List Snap) (sales : List SaleRow)
    (weeks : ℕ) (today : ℤ) (fallbackWeeks : ℕ) : ℚ :=
  (calculateVariantSalesSpeedDetails snaps sales weeks today fallbackWeeks).speed

/-- The most recent snapshot count at or before day `d` (first-encountered
snapshot wins among equal dates). Used to state the spec's reading of weekly
stock presence in claim C1. -/
def latestSnapCountAt (snaps : List Snap) (d : ℤ) : Option ℤ :=
  (snaps.foldl
    (fun (acc : Option Snap) s =>
      if s.date ≤ d then
        match acc with
        | none => some s
        | some b => if b.date < s.date then some s else some b
      else acc)
    none).map (fun s => s.inventory_count)

/-- Claim C1's reading of "counted": the week had any sales, OR the most
recent snapshot at or before the week's end has count > 0 (weeks before any
snapshot count only if they had a sale). -/
def specWeekCounted (snaps : List Snap) (sales : List SaleRow) (ws : ℤ) :
    Bool :=
  !(sales.filter (fun s => weekStartOf s.date == ws)).isEmpty ||
    (match latestSnapCountAt snaps (ws + 6) with
     | some c => decide (0 < c)
     | none => false)

/-- The velocity claim C1 computes, with stock presence taken from the most
recent snapshot at or before each week's end (spec wording). -/
def specSpeedForWindow (snaps : List Snap) (sales : List SaleRow) (today : ℤ)
    (windowWeeks : ℕ) : ℚ :=
  let counted := (weekStartsList today windowWeeks).filter
    (specWeekCounted snaps sales)
  if counted.length = 0 then 0
  else (((counted.map (soldInWeek sales)).sum : ℚ) / (counted.length : ℚ))
    * weeksPerMonth

/-! ## Restock alerts (`_annotate_variant_stock`, `get_restock_alerts`) -/

/-- Model of `_annotate_variant_stock`'s latest-inventory loop: starts from
`latest_inv = 0`, `latest_dt = None`, keeps the count of the strictly
latest-dated snapshot. A variant with no snapshots yields `0`. -/
def latestInventory (snaps : List Snap) : ℤ :=
  (snaps.foldl
    (fun (st : Option ℤ × ℤ) s =>
      match st.1 with
      | none => (some s.date, s.inventory_count)
      | some d => if d < s.date then (some s.date, s.inventory_count) else st)
    (none, 0)).2

/-- A variant annotated by `_annotate_variant_stock`: its latest inventory
count and average monthly speed. -/
structure AnnVar where
  latest_inventory : ℤ
  avg_speed : ℚ
  deriving DecidableEq

/-- Model of `months_left = latest_inventory / avg_speed if avg_speed > 0 else None`. -/
def monthsLeftOf (v : AnnVar) : Option ℚ :=
  if 0 < v.avg_speed then some ((v.latest_inventory : ℚ) / v.avg_speed)
  else none

/-- Model of `low_count`: variants with `months_left` defined and `< 3`. -/
def lowStockCount (vars : List AnnVar) : ℕ :=
  (vars.filter (fun v =>
    match monthsLeftOf v with
    | some m => decide (m < 3)
    | none => false)).length

/-- Model of `out_count`: variants with `latest_inventory <= 0`. -/
def outOfStockCount (vars : List AnnVar) : ℕ :=
  (vars.filter (fun v => decide (v.latest_inventory ≤ 0))).length

/-- The per-product classification of `get_restock_alerts`: `urgent` when
`out_count / total > 0.2`, else `normal` when `low_count / total >= 0.5`,
else not flagged. -/
def classifyRestockLevel (vars : List AnnVar) : Option String :=
  if (outOfStockCount vars : ℚ) / (vars.length : ℚ) > 1/5 then some "urgent"
  else if (lowStockCount vars : ℚ) / (vars.length : ℚ) ≥ 1/2 then some "normal"
  else none

/-! ## Stock Projection Simulator (`compute_variant_projection`) -/

/-- A calendar date for the projection: month index and day of month;
`date.replace(day=1)` is the month index, comparison is lexicographic. -/
structure PDate where
  month : ℤ
  day : ℤ
  deriving DecidableEq

def pdateLe (a b : PDate) : Bool :=
  a.month < b.month || (a.month == b.month && a.day ≤ b.day)

def pdateLt (a b : PDate) : Bool :=
  a.month < b.month || (a.month == b.month && a.day < b.day)

/-- A `Sale` row as used by the projection. -/
structure PSale where
  date : PDate
  sold_quantity : ℤ
  deriving DecidableEq

/-- An `OrderItem` row: ordered quantity, actual delivered quantity,
expected arrival date, actual arrival date (`None` while pending). -/
structure POrderItem where
  quantity : ℤ
  actual_quantity : Option ℤ
  date_expected : Option PDate
  date_arrived : Option PDate
  deriving DecidableEq

/-- An `InventorySnapshot` row as used by the projection. -/
structure PSnap where
  date : PDate
  inventory_count : ℤ
  deriving DecidableEq

/-- A variant together with the rows the projection reads. -/
structure ProjVariant where
  sales : List PSale
  order_items : List POrderItem
  snapshots : List PSnap
  deriving DecidableEq

/-- Model of `sales_by_month[m]`: total sold quantity of the variant's sales in
month `m`. -/
def salesByMonth (sales : List PSale) (m : ℤ) : ℤ :=
  ((sales.filter (fun s => s.date.month == m)).map
    (fun s => s.sold_quantity)).sum

/-- The quantity an `OrderItem` contributes to month `m` in the `restocks`
map: delivered items go to the month of `date_arrived` with
`actual_quantity` (falling back to `quantity`); pending items with an
expected date go to the month of `date_expected`. -/
def restockContribution (oi : POrderItem) (m : ℤ) : ℤ :=
  match oi.date_arrived with
  | some d =>
    if d.month == m then
      match oi.actual_quantity with
      | some a => a
      | none => oi.quantity
    else 0
  | none =>
    match oi.date_expected with
    | some e => if e.month == m then oi.quantity else 0
    | none => 0

/-- Model of `restocks[m]` of `compute_variant_projection`. -/
def restocksByMonth (items : List POrderItem) (m : ℤ) : ℤ :=
  (items.map (fun oi => restockContribution oi m)).sum

/-- Claim C7's attribution map, written from the claim's words: delivered
items contribute their delivered (else ordered) quantity to the arrival
month; pending items contribute the ordered quantity to the expected-arrival
month. No overdue exception. -/
def claimRestocksByMonth (items : List POrderItem) (m : ℤ) : ℤ :=
  ((items.filter (fun oi =>
      match oi.date_arrived with
      | some d => d.month == m
      | none => false)).map
    (fun oi =>
      match oi.actual_quantity with
      | some a => a
      | none => oi.quantity)).sum
  + ((items.filter (fun oi =>
      match oi.date_arrived with
      | some _ => false
      | none =>
        match oi.date_expected with
        | some e => e.month == m
        | none => false)).map
    (fun oi => oi.quantity)).sum

/-- The attribution map claim C7 states (with the overdue exception):
a pending item whose expected arrival is before `today` is attributed to the
month after the current month. -/
def specRestocksByMonthClaim (today : PDate) (items : List POrderItem)
    (m : ℤ) : ℤ :=
  (items.map (fun oi =>
    match oi.date_arrived with
    | some d =>
      if d.month == m then
        match oi.actual_quantity with
        | some a => a
        | none => oi.quantity
      else 0
    | none =>
      match oi.date_expected with
      | some e =>
        if pdateLt e today then (if today.month + 1 == m then oi.quantity else 0)
        else (if e.month == m then oi.quantity else 0)
      | none => 0)).sum

/-- Model of `Sale.objects.aggregate(Min("date"))` over the variants' sales. -/
def firstSaleDate (sales : List PSale) : Option PDate :=
  sales.foldl
    (fun acc s =>
      match acc with
      | none => some s.date
      | some d => if pdateLt s.date d then some s.date else some d)
    none

/-- The projection's start month: one month before the first sale, clamped
to at most 12 months before the current month; the current month when there
are no sales. -/
def projStartMonth (todayMonth : ℤ) (allSales : List PSale) : ℤ :=
  match firstSaleDate allSales with
  | some d => max (d.month - 1) (todayMonth - 12)
  | none => todayMonth

/-- The month axis: `start_month` through `current_month + 12` inclusive. -/
def projMonths (todayMonth : ℤ) (allSales : List PSale) : List ℤ :=
  let start := projStartMonth todayMonth allSales
  (List.range ((todayMonth + 12 - start) + 1).toNat).map
    (fun i => start + (i : ℤ))

/-- Model of `v.snapshots.filter(date__lte=start_month).order_by("-date").first()`:
the count of the latest snapshot dated at or before the first day of the
start month (first-encountered wins among equal dates). -/
def startingSnapshotCount (startMonth : ℤ) (snaps : List PSnap) : Option ℤ :=
  (snaps.foldl
    (fun (acc : Option PSnap) s =>
      if pdateLe s.date ⟨startMonth, 1⟩ then
        match acc with
        | none => some s
        | some b => if pdateLt b.date s.date then some s else some b
      else acc)
    none).map (fun s => s.inventory_count)

/-- One month step of the simulation: add restocks; subtract actual sales
for months at or before the current month, the estimated speed otherwise;
then `current = max(round(current), 0)`. -/
def projStep (speed : ℚ) (restocks sales : ℤ → ℤ) (curMonth : ℤ) (prev : ℤ)
    (m : ℤ) : ℤ :=
  let afterSales : ℚ :=
    if m ≤ curMonth then ((prev + restocks m - sales m : ℤ) : ℚ)
    else ((prev + restocks m : ℤ) : ℚ) - speed
  max (rheZ afterSales) 0

/-- The simulated levels, one per month, threading the clamped stock. -/
def projLevels (speed : ℚ) (restocks sales : ℤ → ℤ) (curMonth : ℤ) :
    ℤ → List ℤ → List ℤ
  | _, [] => []
  | prev, m :: ms =>
    let c := projStep speed restocks sales curMonth prev m
    c :: projLevels speed restocks sales curMonth c ms

/-- The historical-only month step: add restocks, subtract actual sales,
clamp at 0 (rounding an integer is the identity). -/
def histStep (restocks sales : ℤ → ℤ) (prev m : ℤ) : ℤ :=
  max (prev + restocks m - sales m) 0

/-- Levels produced by iterating the historical-only step. -/
def histLevels (restocks sales : ℤ → ℤ) : ℤ → List ℤ → List ℤ
  | _, [] => []
  | prev, m :: ms =>
    let c := histStep restocks sales prev m
    c :: histLevels restocks sales c ms

/-- Model of `compute_variant_projection`: per-variant simulated levels over the
shared month axis. Speeds are supplied as the `speed_map` argument is. -/
def computeVariantProjection (today : PDate) (variants : List ProjVariant)
    (speeds : List ℚ) : List (List ℤ) :=
  let allSales := (variants.map (fun v => v.sales)).flatten
  let start := projStartMonth today.month allSales
  let months := projMonths today.month allSales
  (variants.zip speeds).map (fun p =>
    projLevels p.2 (restocksByMonth p.1.order_items) (salesByMonth p.1.sales)
      today.month ((startingSnapshotCount start p.1.snapshots).getD 0) months)

/-! ## Product confidence scorer (`compute_product_confidence`)

The advisory strings and the inputs used only by them
(`restock_lead_months`, `inventory_units`) are not modelled; `gift_rate` is
kept because it selects the text of the severe margin signal. -/

/-- The inputs of `compute_product_confidence` that determine level, score
and components. -/
structure ConfInputs where
  months_to_sell_out : Option ℚ
  sales_speed : Option ℚ
  return_rate : Option ℚ
  discount_pct : Option ℚ
  margin_pct : Option ℚ
  avg_return_rate : Option ℚ
  avg_discount_pct : Option ℚ
  avg_margin_pct : Option ℚ
  avg_sales_speed : Option ℚ
  is_core : Bool
  sales_volume : ℤ
  gift_rate : Option ℚ
  deriving DecidableEq

/-- Model of `_banded_score`: 2/1/0 against ascending bands, 1 for missing data. -/
def bandedScore (value : Option ℚ) (b0 b1 : ℚ) : ℤ :=
  match value with
  | none => 1
  | some v => if v ≤ b0 then 2 else if v ≤ b1 then 1 else 0

/-- Sell-through sub-score: core items get bands (12, 18), others (5, 9). -/
def coverageScore (i : ConfInputs) : ℤ :=
  if i.is_core then bandedScore i.months_to_sell_out 12 18
  else bandedScore i.months_to_sell_out 5 9

/-- Sales-speed-vs-average sub-score. -/
def salesSpeedScore (i : ConfInputs) : ℤ :=
  match i.sales_speed, i.avg_sales_speed with
  | none, _ => 1
  | _, none => 1
  | some ss, some av =>
    if av = 0 then 1
    else if av * (12/10) ≤ ss then 2
    else if av * (8/10) ≤ ss then 1
    else 0

/-- Return-rate sub-score. -/
def returnScore (i : ConfInputs) : ℤ :=
  match i.return_rate, i.avg_return_rate with
  | none, _ => 1
  | _, none => 1
  | some r, some av =>
    if av = 0 then 1 else bandedScore (some r) (av * (9/10)) (av * (11/10))

/-- Discount sub-score. -/
def discountScore (i : ConfInputs) : ℤ :=
  match i.discount_pct, i.avg_discount_pct with
  | none, _ => 1
  | _, none => 1
  | some d, some av => bandedScore (some d) av (av + 5)

/-- Margin sub-score. -/
def marginScore (i : ConfInputs) : ℤ :=
  match i.margin_pct, i.avg_margin_pct with
  | none, _ => 1
  | _, none => 1
  | some m, some av =>
    if av + 5 ≤ m then 2 else if av - 5 ≤ m then 1 else 0

/-- The `margin_context` suffix of the severe margin signal. -/
def marginContext (i : ConfInputs) : String :=
  match i.gift_rate with
  | some g => if 1/10 ≤ g then " (margin may be impacted by gifted units)" else ""
  | none => ""

/-- The `severe_signals` list, in the order the source appends them. -/
def severeSignals (i : ConfInputs) : List String :=
  (match i.months_to_sell_out with
   | some m =>
     if 15 ≤ m then ["Projected to take well over a year to sell through."]
     else []
   | none => []) ++
  (match i.return_rate, i.avg_return_rate with
   | some r, some av =>
     if av ≠ 0 ∧ av * (15/10) ≤ r then
       ["Return rate is far above the store average."]
     else []
   | _, _ => []) ++
  (match i.discount_pct with
   | some d =>
     if 50 ≤ d then
       ["Clearance-level discounting is required to sell this item."]
     else
       match i.avg_discount_pct with
       | some av =>
         if av + 25 ≤ d then
           ["Discounting is dramatically above the store average."]
         else []
       | none => []
   | none => []) ++
  (match i.margin_pct, i.avg_margin_pct with
   | some m, some av =>
     if m ≤ av - 15 then
       ["Gross margin is substantially below the store average"
         ++ marginContext i ++ "."]
     else []
   | _, _ => [])

/-- The weighted sum of sub-scores: core weights (.25, .2, .2, .15, .2),
non-core weights (.3, .25, .15, .2, .1). -/
def weightedSumOf (i : ConfInputs) : ℚ :=
  if i.is_core then
    (coverageScore i : ℚ) * (25/100) + (salesSpeedScore i : ℚ) * (2/10)
      + (returnScore i : ℚ) * (2/10) + (discountScore i : ℚ) * (15/100)
      + (marginScore i : ℚ) * (2/10)
  else
    (coverageScore i : ℚ) * (3/10) + (salesSpeedScore i : ℚ) * (25/100)
      + (returnScore i : ℚ) * (15/100) + (discountScore i : ℚ) * (2/10)
      + (marginScore i : ℚ) * (1/10)

/-- The performance bonus: +0.1, +0.05, +0.05 for the three conditions. -/
def performanceBonus (i : ConfInputs) : ℚ :=
  (if coverageScore i = 2 ∧ discountScore i = 2 then 1/10 else 0)
    + (if marginScore i = 2 then 5/100 else 0)
    + (if 50 ≤ i.sales_volume then 5/100 else 0)

/-- Model of `weighted_sum = min(weighted_sum + performance_bonus, 2)`. -/
def cappedWeighted (i : ConfInputs) : ℚ :=
  min (weightedSumOf i + performanceBonus i) 2

/-- Model of `score_pct = (weighted_sum / 2) * 100`. -/
def scorePct (i : ConfInputs) : ℚ := cappedWeighted i / 2 * 100

/-- The level thresholds applied before the severe override. -/
def levelBeforeOverride (i : ConfInputs) : String :=
  if 67 ≤ scorePct i then "High"
  else if 40 ≤ scorePct i then "Medium"
  else "Low"

/-- The `components` dictionary. -/
structure ConfComponents where
  sell_through : ℤ
  sales_speed : ℤ
  returns : ℤ
  discount : ℤ
  margin : ℤ
  deriving DecidableEq

/-- Level, score and components of `compute_product_confidence`. -/
structure ConfResult where
  level : String
  score : ℚ
  components : ConfComponents
  deriving DecidableEq

/-- Model of `compute_product_confidence` (level/score/components part): the severe
override forces level "Low" and caps the score at 30; the returned score is
rounded to one decimal. -/
def computeProductConfidence (i : ConfInputs) : ConfResult :=
  let comps : ConfComponents :=
    ⟨coverageScore i, salesSpeedScore i, returnScore i, discountScore i,
      marginScore i⟩
  if severeSignals i = [] then
    ⟨levelBeforeOverride i, pyRound1 (scorePct i), comps⟩
  else
    ⟨"Low", pyRound1 (min (scorePct i) 30), comps⟩

/-! ## Price-bucket classifier (`_determine_price_bucket`) -/

/-- A sale row as read by `_determine_price_bucket` (with the variant's
product `retail_price` inlined). -/
structure PBSale where
  sold_quantity : Option ℤ
  sold_value : Option ℚ
  return_value : Option ℚ
  retail_price : Option ℚ
  deriving DecidableEq

/-- Model of `actual_total`: `sold_value or 0`, falling back to `abs(return_value)`
when zero/absent and `return_value` is truthy. -/
def actualTotalOf (s : PBSale) : ℚ :=
  let sv := s.sold_value.getD 0
  if sv = 0 then
    let rv := s.return_value.getD 0
    if rv ≠ 0 then |rv| else sv
  else sv

/-- Model of `_determine_price_bucket`. -/
def determinePriceBucket (s : PBSale) : Option String :=
  if s.sold_quantity.getD 0 ≤ 0 then none
  else
    let retail := s.retail_price.getD 0
    let actualPrice := actualTotalOf s / ((s.sold_quantity.getD 0 : ℤ) : ℚ)
    if actualPrice = 0 then some "gifted"
    else if retail ≤ 0 then some "full_price"
    else if (retail - actualPrice) / retail ≤ 5/1000 then some "full_price"
    else if (retail - actualPrice) / retail < 5/100 then some "small_discount"
    else if (retail - actualPrice) / retail < 20/100 then some "discount"
    else some "wholesale"

/-- Claim C4's classifier, written from the claim's words: actual unit price
with the refund fallback, `gifted` at 0, `full_price` for unknown retail,
then the diff-ratio bands. -/
def specPriceBucket (s : PBSale) : Option String :=
  let q := s.sold_quantity.getD 0
  if q ≤ 0 then none
  else
    let retail := s.retail_price.getD 0
    let unit : ℚ :=
      if s.sold_value.getD 0 = 0 then |s.return_value.getD 0| / (q : ℚ)
      else s.sold_value.getD 0 / (q : ℚ)
    if unit = 0 then some "gifted"
    else if retail ≤ 0 then some "full_price"
    else if (retail - unit) / retail ≤ 5/1000 then some "full_price"
    else if (retail - unit) / retail < 5/100 then some "small_discount"
    else if (retail - unit) / retail < 20/100 then some "discount"
    else some "wholesale"

/-! ## Helper lemmas -/

theorem rheZ_intCast (n : ℤ) : rheZ ((n : ℤ) : ℚ) = n := by
  unfold rheZ
  rw [Int.floor_intCast]
  norm_num

theorem floor_le_rheZ (q : ℚ) : ⌊q⌋ ≤ rheZ q := by
  unfold rheZ
  split_ifs <;> omega

theorem rheZ_le_intCast {q : ℚ} {n : ℤ} (h : q ≤ (n : ℚ)) : rheZ q ≤ n := by
  have hf : ⌊q⌋ ≤ n := by
    have h2 := Int.floor_le_floor h
    rwa [Int.floor_intCast] at h2
  have hkey : ¬(q - ⌊q⌋ < 1/2) → ⌊q⌋ + 1 ≤ n := by
    intro hhalf
    rcases lt_or_eq_of_le hf with hlt | heq
    · omega
    · exfalso
      have hq : q = (n : ℚ) := by
        refine le_antisymm h ?_
        calc (n : ℚ) = ((⌊q⌋ : ℤ) : ℚ) := by rw [heq]
        _ ≤ q := Int.floor_le q
      apply hhalf
      rw [hq, Int.floor_intCast]
      norm_num
  unfold rheZ
  split_ifs with h1 h2 h3
  · exact hf
  · exact hkey h1
  · exact hf
  · exact hkey h1

theorem rheZ_nonneg {q : ℚ} (h : 0 ≤ q) : 0 ≤ rheZ q := by
  have h1 : (0 : ℤ) ≤ ⌊q⌋ := Int.floor_nonneg.mpr h
  have h2 := floor_le_rheZ q
  omega

theorem pyRound1_eq_self {q : ℚ} (h : ∃ n : ℤ, q * 10 = (n : ℚ)) :
    pyRound1 q = q := by
  obtain ⟨n, hn⟩ := h
  unfold pyRound1
  rw [hn, rheZ_intCast]
  rw [← hn]
  ring

theorem pyRound1_le_intCast {q : ℚ} {n : ℤ} (h : q ≤ (n : ℚ)) :
    pyRound1 q ≤ (n : ℚ) := by
  have h1 : q * 10 ≤ ((10 * n : ℤ) : ℚ) := by push_cast; linarith
  have h2 : rheZ (q * 10) ≤ 10 * n := rheZ_le_intCast h1
  have h3 : ((rheZ (q * 10) : ℤ) : ℚ) ≤ ((10 * n : ℤ) : ℚ) := by
    exact_mod_cast h2
  unfold pyRound1
  push_cast at h3 ⊢
  linarith

theorem pyRound1_nonneg {q : ℚ} (h : 0 ≤ q) : 0 ≤ pyRound1 q := by
  have h1 : (0 : ℤ) ≤ rheZ (q * 10) := rheZ_nonneg (by linarith)
  have h2 : (0 : ℚ) ≤ ((rheZ (q * 10) : ℤ) : ℚ) := by exact_mod_cast h1
  unfold pyRound1
  positivity

/-- A historical month's step of the simulator coincides with the
historical-only step: rounding an integer value is the identity. -/
theorem projStep_eq_histStep (speed : ℚ) (restocks sales : ℤ → ℤ)
    (cur prev m : ℤ) (h : m ≤ cur) :
    projStep speed restocks sales cur prev m = histStep restocks sales prev m := by
  simp only [projStep, histStep]
  rw [if_pos h, rheZ_intCast]

/-! ## Claim C2: the historical/future split of the projection -/

/-- C2 (amended): in `compute_variant_projection`, every month at or before
the current month adds that month's restocks and subtracts the *actual*
recorded sold quantity — the simulated levels over any prefix of months at
or before the current month coincide with the velocity-free historical
iteration from the starting snapshot level (so the estimated velocity is
never used there) — while a month strictly after the current month subtracts
the estimated monthly velocity instead. -/
theorem projection_historical_prefix :
    (∀ (speed : ℚ) (restocks sales : ℤ → ℤ) (cur start : ℤ)
        (hist future : List ℤ), (∀ m ∈ hist, m ≤ cur) →
      (projLevels speed restocks sales cur start (hist ++ future)).take
          hist.length
        = histLevels restocks sales start hist)
  ∧ (∀ (speed : ℚ) (restocks sales : ℤ → ℤ) (cur prev m : ℤ), cur < m →
      projStep speed restocks sales cur prev m
        = max (rheZ (((prev + restocks m : ℤ) : ℚ) - speed)) 0) := by
  constructor
  · intro speed restocks sales cur start hist future hh
    induction hist generalizing start with
    | nil => rfl
    | cons m ms ih =>
      rw [List.cons_append]
      show (projStep speed restocks sales cur start m
          :: projLevels speed restocks sales cur
              (projStep speed restocks sales cur start m) (ms ++ future)).take
            (ms.length + 1)
        = histStep restocks sales start m
          :: histLevels restocks sales (histStep restocks sales start m) ms
      rw [List.take_succ_cons,
        projStep_eq_histStep speed restocks sales cur start m
          (hh m (List.mem_cons_self m ms))]
      exact congrArg _ (ih _ fun x hx => hh x (List.mem_cons_of_mem _ hx))
  · intro speed restocks sales cur prev m h
    simp only [projStep]
    rw [if_neg (by omega)]

/-- C2, witness: a concrete three-month historical prefix where the
simulator's output equals the velocity-free historical iteration. -/
theorem projection_historical_prefix_witness :
    (projLevels 1 (fun _ => 0) (fun _ => 0) 2 10 ([0, 1, 2] ++ [3])).take 3
      = histLevels (fun _ => 0) (fun _ => 0) 10 [0, 1, 2] :=
  projection_historical_prefix.1 1 (fun _ => 0) (fun _ => 0) 2 10 [0, 1, 2] [3]
    (by decide)

set_option maxRecDepth 8000 in
/-- C2, counterexample to the claim as stated: a variant with a snapshot of
10 before the projection start, a sale of 5 one month before the current
month and no restocks. On the month axis the current month (index 2) gets
the simulated level 5, while "latest snapshot count plus restocks for the
current month minus actual sales for the current month" is 10. -/
theorem projection_current_month_cex :
    (projMonths 2 [⟨⟨1, 5⟩, 5⟩]).getD 2 0 = 2
    ∧ ((computeVariantProjection ⟨2, 20⟩ [⟨[⟨⟨1, 5⟩, 5⟩], [], [⟨⟨0, 1⟩, 10⟩]⟩]
          [1]).getD 0 []).getD 2 0 = 5
    ∧ ((startingSnapshotCount (projStartMonth 2 [⟨⟨1, 5⟩, 5⟩])
          [⟨⟨0, 1⟩, 10⟩]).getD 0
        + restocksByMonth [] 2 - salesByMonth [⟨⟨1, 5⟩, 5⟩] 2) = 10
    ∧ (5 : ℤ) ≠ 10 := by
  with_unfolding_all decide

/-! ## Claim C10: projection non-negativity -/

/-- C10: every simulated stock level is non-negative (the level is clamped
to a minimum of 0 at every monthly step), and the spec's example — starting
stock 10, velocity 2, no restocks, current month followed by six future
months — yields levels [10, 8, 6, 4, 2, 0, 0]. -/
theorem projection_levels_nonneg :
    (∀ (speed : ℚ) (restocks sales : ℤ → ℤ) (cur prev : ℤ)
        (months : List ℤ) (x : ℤ),
      x ∈ projLevels speed restocks sales cur prev months → 0 ≤ x)
  ∧ projLevels 2 (fun _ => 0) (fun _ => 0) 0 10 [0, 1, 2, 3, 4, 5, 6]
      = [10, 8, 6, 4, 2, 0, 0] := by
  constructor
  · intro speed restocks sales cur prev months
    induction months generalizing prev with
    | nil => intro x hx; simp [projLevels] at hx
    | cons m ms ih =>
      intro x hx
      rcases List.mem_cons.mp hx with h | h
      · rw [h]; exact le_max_right _ _
      · exact ih _ x h
  · with_unfolding_all decide

/-- C10, witness: the value 10 occurs in the example projection and the
theorem yields its non-negativity. -/
theorem projection_levels_nonneg_witness : (0 : ℤ) ≤ 10 :=
  projection_levels_nonneg.1 2 (fun _ => 0) (fun _ => 0) 0 10
    [0, 1, 2, 3, 4, 5, 6] 10 (by with_unfolding_all decide)

/-! ## Claim C7: restock attribution by month -/

theorem sum_map_filter_eq_sum_ite {α : Type} (p : α → Bool) (f : α → ℤ)
    (l : List α) :
    ((l.filter p).map f).sum
      = (l.map (fun x => if p x then f x else 0)).sum := by
  induction l with
  | nil => rfl
  | cons a t ih =>
    rw [List.filter_cons]
    by_cases h : p a
    · simp only [h, if_true, List.map_cons, List.sum_cons, ih]
    · simp only [h, if_false, List.map_cons, List.sum_cons, ih, Bool.false_eq_true]
      omega

theorem sum_map_add_split {α : Type} (f g : α → ℤ) (l : List α) :
    (l.map (fun x => f x + g x)).sum = (l.map f).sum + (l.map g).sum := by
  induction l with
  | nil => rfl
  | cons a t ih =>
    simp only [List.map_cons, List.sum_cons, ih]
    ring

/-- C7 (amended): in `compute_variant_projection`, a delivered `OrderItem`
contributes its delivered quantity (falling back to the ordered quantity)
to the month of its actual arrival, and a pending `OrderItem` with an
expected date contributes its ordered quantity to the month of its expected
arrival — even when that expected date is already in the past; a pending
item with no expected date contributes nothing. -/
theorem restock_attribution_months (items : List POrderItem) (m : ℤ) :
    restocksByMonth items m = claimRestocksByMonth items m := by
  unfold restocksByMonth claimRestocksByMonth
  rw [sum_map_filter_eq_sum_ite, sum_map_filter_eq_sum_ite,
    ← sum_map_add_split]
  apply congrArg List.sum
  apply congrArg (List.map · items)
  funext oi
  rcases ha : oi.date_arrived with _ | d
  · rcases he : oi.date_expected with _ | e
    · simp [restockContribution, ha, he]
    · simp only [restockContribution, ha, he]
      by_cases hm : e.month = m
      · simp [hm]
      · simp [hm]
  · simp only [restockContribution, ha]
    by_cases hm : d.month = m
    · rcases hq : oi.actual_quantity with _ | a <;> simp [hm, hq]
    · simp [hm]

/-- C7, counterexample to the claim as stated: a pending order item of
quantity 7 whose expected arrival (month 1) is already past today
(month 2, day 15). The code attributes it to month 1; the claim's map
attributes it to month 3 and leaves month 1 empty. -/
theorem restock_attribution_overdue_cex :
    restocksByMonth [⟨7, none, some ⟨1, 10⟩, none⟩] 1
      ≠ specRestocksByMonthClaim ⟨2, 15⟩ [⟨7, none, some ⟨1, 10⟩, none⟩] 1
    ∧ specRestocksByMonthClaim ⟨2, 15⟩ [⟨7, none, some ⟨1, 10⟩, none⟩] 3 = 7
    ∧ restocksByMonth [⟨7, none, some ⟨1, 10⟩, none⟩] 3 = 0 := by
  decide

/-! ## Claim C8: missing snapshots -/

theorem mem_insertEvent {x e : Event} {l : List Event}
    (h : x ∈ insertEvent e l) : x = e ∨ x ∈ l := by
  induction l with
  | nil =>
    simp only [insertEvent, List.mem_singleton] at h
    exact Or.inl h
  | cons a t ih =>
    rw [insertEvent] at h
    split_ifs at h with hd
    · rcases List.mem_cons.mp h with h1 | h1
      · exact Or.inr (by simp [h1])
      · rcases ih h1 with h2 | h2
        · exact Or.inl h2
        · exact Or.inr (List.mem_cons_of_mem _ h2)
    · rcases List.mem_cons.mp h with h1 | h1
      · exact Or.inl h1
      · exact Or.inr h1

theorem mem_sortEvents {x : Event} {l : List Event}
    (h : x ∈ sortEvents l) : x ∈ l := by
  induction l with
  | nil => exact absurd h (by simp [sortEvents])
  | cons a t ih =>
    rcases mem_insertEvent (show x ∈ insertEvent a (sortEvents t) from h) with
      h1 | h1
    · simp [h1]
    · exact List.mem_cons_of_mem _ (ih h1)

/-- Folding the inventory loop over sale-only events never sets
`seen_snapshot`. -/
theorem foldl_sales_not_seen (we : ℤ) (evs : List Event)
    (hk : ∀ e ∈ evs, e.kind = .sale) :
    ∀ c : ℤ, (evs.foldl (invStep we) (c, false)).2 = false := by
  induction evs with
  | nil => intro c; rfl
  | cons e t ih =>
    intro c
    have hke := hk e (List.mem_cons_self e t)
    have ht : ∀ x ∈ t, x.kind = .sale := fun x hx =>
      hk x (List.mem_cons_of_mem _ hx)
    rw [List.foldl_cons]
    unfold invStep
    split_ifs with hd
    · rw [hke]
      exact ih ht (c - e.qty)
    · exact ih ht c

/-- C8 (amended): with no snapshots, the velocity estimator's weekly stock
presence is `None` (unknown) for every week; but `_annotate_variant_stock`
reports the current stock of a snapshot-less variant as `0`, and the
projection's starting level likewise falls back to the concrete count `0`. -/
theorem missing_snapshot_handling :
    (∀ (sales : List SaleRow) (ws : ℤ),
      inventoryAtWeek (eventsOf [] sales) ws = none)
  ∧ latestInventory [] = 0
  ∧ (∀ startMonth : ℤ, (startingSnapshotCount startMonth []).getD 0 = 0) := by
  refine ⟨?_, rfl, fun _ => rfl⟩
  intro sales ws
  have hk : ∀ e ∈ eventsOf [] sales, e.kind = .sale := by
    intro e he
    have hmem := mem_sortEvents (show e ∈ sortEvents _ from he)
    simp only [List.map_nil, List.nil_append, List.mem_map] at hmem
    obtain ⟨s, _, hs⟩ := hmem
    rw [← hs]
  have hff := foldl_sales_not_seen (ws + 6) (eventsOf [] sales) hk 0
  simp only [inventoryAtWeek]
  rw [hff]
  rfl

/-- C8, counterexample to the claim as stated: the restock-alert current
stock of a snapshot-less variant is the concrete integer `0`, and a
snapshot-less variant projects exactly like one carrying an explicit
zero-count snapshot — absent snapshots are represented as stock `0`, not as
an unknown marker. -/
theorem missing_snapshot_zero_cex :
    latestInventory [] = (0 : ℤ)
    ∧ computeVariantProjection ⟨2, 20⟩ [⟨[⟨⟨1, 5⟩, 3⟩], [], []⟩] [1]
        = computeVariantProjection ⟨2, 20⟩
            [⟨[⟨⟨1, 5⟩, 3⟩], [], [⟨⟨0, 1⟩, 0⟩]⟩] [1] := by
  constructor
  · rfl
  · with_unfolding_all decide

/-! ## Claims C3 and C9: the confidence scorer -/

theorem bandedScore_nonneg (v : Option ℚ) (b0 b1 : ℚ) :
    0 ≤ bandedScore v b0 b1 := by
  unfold bandedScore
  split
  · norm_num
  · split_ifs <;> norm_num

theorem coverageScore_nonneg (i : ConfInputs) : 0 ≤ coverageScore i := by
  unfold coverageScore
  split_ifs <;> exact bandedScore_nonneg _ _ _

theorem salesSpeedScore_nonneg (i : ConfInputs) : 0 ≤ salesSpeedScore i := by
  unfold salesSpeedScore
  split
  · norm_num
  · norm_num
  · split_ifs <;> norm_num

theorem returnScore_nonneg (i : ConfInputs) : 0 ≤ returnScore i := by
  unfold returnScore
  split
  · norm_num
  · norm_num
  · split_ifs with h
    · norm_num
    · exact bandedScore_nonneg _ _ _

theorem discountScore_nonneg (i : ConfInputs) : 0 ≤ discountScore i := by
  unfold discountScore
  split
  · norm_num
  · norm_num
  · exact bandedScore_nonneg _ _ _

theorem marginScore_nonneg (i : ConfInputs) : 0 ≤ marginScore i := by
  unfold marginScore
  split
  · norm_num
  · norm_num
  · split_ifs <;> norm_num

theorem performanceBonus_nonneg (i : ConfInputs) : 0 ≤ performanceBonus i := by
  unfold performanceBonus
  split_ifs <;> norm_num

theorem weightedSumOf_nonneg (i : ConfInputs) : 0 ≤ weightedSumOf i := by
  have h1 := coverageScore_nonneg i
  have h2 := salesSpeedScore_nonneg i
  have h3 := returnScore_nonneg i
  have h4 := discountScore_nonneg i
  have h5 := marginScore_nonneg i
  have c1 : (0 : ℚ) ≤ (coverageScore i : ℚ) := by exact_mod_cast h1
  have c2 : (0 : ℚ) ≤ (salesSpeedScore i : ℚ) := by exact_mod_cast h2
  have c3 : (0 : ℚ) ≤ (returnScore i : ℚ) := by exact_mod_cast h3
  have c4 : (0 : ℚ) ≤ (discountScore i : ℚ) := by exact_mod_cast h4
  have c5 : (0 : ℚ) ≤ (marginScore i : ℚ) := by exact_mod_cast h5
  unfold weightedSumOf
  split_ifs <;> positivity

theorem scorePct_nonneg (i : ConfInputs) : 0 ≤ scorePct i := by
  unfold scorePct cappedWeighted
  have h1 := weightedSumOf_nonneg i
  have h2 := performanceBonus_nonneg i
  have h3 : (0 : ℚ) ≤ min (weightedSumOf i + performanceBonus i) 2 :=
    le_min (by linarith) (by norm_num)
  linarith

theorem scorePct_le_100 (i : ConfInputs) : scorePct i ≤ 100 := by
  unfold scorePct cappedWeighted
  have h : min (weightedSumOf i + performanceBonus i) 2 ≤ 2 := min_le_right _ _
  linarith

/-- C3: whenever any severe-signal condition holds (sell-out horizon at
least 15 months; return rate at least 1.5 times a nonzero store average;
discount at least 50 or at least 25 points above the store average; margin
at least 15 points below the store average), `compute_product_confidence`
returns level "Low" with a score of at most 30, regardless of the weighted
sub-scores and bonuses. -/
theorem confidence_severe_override (i : ConfInputs)
    (h : (∃ m, i.months_to_sell_out = some m ∧ 15 ≤ m)
      ∨ (∃ r av, i.return_rate = some r ∧ i.avg_return_rate = some av
          ∧ av ≠ 0 ∧ av * (15/10) ≤ r)
      ∨ (∃ d, i.discount_pct = some d
          ∧ (50 ≤ d ∨ ∃ av, i.avg_discount_pct = some av ∧ av + 25 ≤ d))
      ∨ (∃ mp av, i.margin_pct = some mp ∧ i.avg_margin_pct = some av
          ∧ mp ≤ av - 15)) :
    (computeProductConfidence i).level = "Low"
    ∧ (computeProductConfidence i).score ≤ 30 := by
  have hs : severeSignals i ≠ [] := by
    apply List.ne_nil_of_length_pos
    rcases h with ⟨m, hm, hge⟩ | ⟨r, av, hr, hav, hne, hge⟩ |
      ⟨d, hd, hor⟩ | ⟨mp, av, hmp, hav, hle⟩
    · simp only [severeSignals, hm, if_pos hge, List.length_append]
      simp
    · simp only [severeSignals, hr, hav, if_pos (And.intro hne hge),
        List.length_append]
      simp
    · rcases hor with h50 | ⟨av, hav, h25⟩
      · simp only [severeSignals, hd, if_pos h50, List.length_append]
        simp
      · by_cases h50 : (50 : ℚ) ≤ d
        · simp only [severeSignals, hd, if_pos h50, List.length_append]
          simp
        · simp only [severeSignals, hd, if_neg h50, hav, if_pos h25,
            List.length_append]
          simp
    · simp only [severeSignals, hmp, hav, if_pos hle, List.length_append]
      simp
  unfold computeProductConfidence
  rw [if_neg hs]
  refine ⟨rfl, ?_⟩
  show pyRound1 (min (scorePct i) 30) ≤ 30
  have h1 : min (scorePct i) 30 ≤ ((30 : ℤ) : ℚ) := by
    push_cast
    exact min_le_right _ _
  have h2 := pyRound1_le_intCast h1
  push_cast at h2
  exact h2

/-- C3, witness: a sell-out horizon of 20 months forces level "Low" and a
score of at most 30. -/
theorem confidence_severe_override_witness :
    (computeProductConfidence
        ⟨some 20, none, none, none, none, none, none, none, none,
          false, 0, none⟩).level = "Low"
    ∧ (computeProductConfidence
        ⟨some 20, none, none, none, none, none, none, none, none,
          false, 0, none⟩).score ≤ 30 :=
  confidence_severe_override _ (Or.inl ⟨20, rfl, by norm_num⟩)

theorem five_hundred_weighted_int (i : ConfInputs) :
    ∃ k : ℤ, (500 : ℚ) * weightedSumOf i = (k : ℚ) := by
  unfold weightedSumOf
  by_cases hc : i.is_core
  · refine ⟨coverageScore i * 125 + salesSpeedScore i * 100
      + returnScore i * 100 + discountScore i * 75 + marginScore i * 100, ?_⟩
    rw [if_pos hc]
    push_cast
    ring
  · refine ⟨coverageScore i * 150 + salesSpeedScore i * 125
      + returnScore i * 75 + discountScore i * 100 + marginScore i * 50, ?_⟩
    rw [if_neg hc]
    push_cast
    ring

theorem five_hundred_bonus_int (i : ConfInputs) :
    ∃ k : ℤ, (500 : ℚ) * performanceBonus i = (k : ℚ) := by
  unfold performanceBonus
  refine ⟨(if coverageScore i = 2 ∧ discountScore i = 2 then 50 else 0)
    + (if marginScore i = 2 then 25 else 0)
    + (if 50 ≤ i.sales_volume then 25 else 0), ?_⟩
  split_ifs <;> norm_num

theorem ten_scorePct_int (i : ConfInputs) :
    ∃ n : ℤ, (10 : ℚ) * scorePct i = (n : ℚ) := by
  obtain ⟨k, hk⟩ := five_hundred_weighted_int i
  obtain ⟨j, hj⟩ := five_hundred_bonus_int i
  refine ⟨min (k + j) 1000, ?_⟩
  unfold scorePct cappedWeighted
  have hmin : (500 : ℚ) * min (weightedSumOf i + performanceBonus i) 2
      = min ((500 : ℚ) * (weightedSumOf i + performanceBonus i)) 1000 := by
    rcases le_total (weightedSumOf i + performanceBonus i) 2 with h | h
    · rw [min_eq_left h, min_eq_left (by linarith)]
    · rw [min_eq_right h, min_eq_right (by linarith)]
      norm_num
  have h2 : (500 : ℚ) * (weightedSumOf i + performanceBonus i)
      = ((k + j : ℤ) : ℚ) := by
    push_cast
    linarith [hk, hj]
  calc (10 : ℚ) * (min (weightedSumOf i + performanceBonus i) 2 / 2 * 100)
      = 500 * min (weightedSumOf i + performanceBonus i) 2 := by ring
    _ = min ((500 : ℚ) * (weightedSumOf i + performanceBonus i)) 1000 := hmin
    _ = min (((k + j : ℤ) : ℚ)) (((1000 : ℤ) : ℚ)) := by
        rw [h2]
        norm_num
    _ = ((min (k + j) 1000 : ℤ) : ℚ) := (Int.cast_min).symm

/-- C9: the confidence score is always between 0 and 100 inclusive, and when
no severe signal is present the level is "High" iff the score is at least
67, "Medium" iff the score is in [40, 67), and "Low" iff it is below 40. -/
theorem confidence_score_range_and_levels (i : ConfInputs) :
    (0 ≤ (computeProductConfidence i).score
      ∧ (computeProductConfidence i).score ≤ 100)
  ∧ (severeSignals i = [] →
      (((computeProductConfidence i).level = "High"
          ↔ 67 ≤ (computeProductConfidence i).score)
        ∧ ((computeProductConfidence i).level = "Medium"
          ↔ 40 ≤ (computeProductConfidence i).score
              ∧ (computeProductConfidence i).score < 67)
        ∧ ((computeProductConfidence i).level = "Low"
          ↔ (computeProductConfidence i).score < 40))) := by
  have hnn := scorePct_nonneg i
  have h100 := scorePct_le_100 i
  constructor
  · unfold computeProductConfidence
    split_ifs with hs
    · constructor
      · exact pyRound1_nonneg hnn
      · show pyRound1 (scorePct i) ≤ 100
        have h1 : pyRound1 (scorePct i) ≤ ((100 : ℤ) : ℚ) :=
          pyRound1_le_intCast (by push_cast; linarith)
        push_cast at h1
        linarith
    · constructor
      · exact pyRound1_nonneg (le_min hnn (by norm_num))
      · show pyRound1 (min (scorePct i) 30) ≤ 100
        have h1 : pyRound1 (min (scorePct i) 30) ≤ ((30 : ℤ) : ℚ) :=
          pyRound1_le_intCast (by push_cast; exact min_le_right _ _)
        push_cast at h1
        linarith
  · intro hs
    have hid : pyRound1 (scorePct i) = scorePct i := by
      apply pyRound1_eq_self
      obtain ⟨n, hn⟩ := ten_scorePct_int i
      exact ⟨n, by linarith⟩
    have hsc : (computeProductConfidence i).score = scorePct i := by
      unfold computeProductConfidence
      rw [if_pos hs]
      exact hid
    have hlv : (computeProductConfidence i).level = levelBeforeOverride i := by
      unfold computeProductConfidence
      rw [if_pos hs]
    rw [hsc, hlv]
    unfold levelBeforeOverride
    split_ifs with h67 h40
    · refine ⟨⟨fun _ => h67, fun _ => rfl⟩, ⟨?_, ?_⟩, ⟨?_, ?_⟩⟩
      · intro hM
        exact absurd hM (by decide)
      · rintro ⟨-, hlt⟩
        exact absurd h67 (not_le.mpr hlt)
      · intro hL
        exact absurd hL (by decide)
      · intro hlt
        exact absurd h67 (not_le.mpr (by linarith))
    · refine ⟨⟨?_, ?_⟩, ⟨fun _ => ⟨h40, not_le.mp h67⟩, fun _ => rfl⟩,
        ⟨?_, ?_⟩⟩
      · intro hH
        exact absurd hH (by decide)
      · intro hge
        exact absurd hge h67
      · intro hL
        exact absurd hL (by decide)
      · intro hlt
        exact absurd h40 (not_le.mpr hlt)
    · refine ⟨⟨?_, ?_⟩, ⟨?_, ?_⟩, ⟨fun _ => not_le.mp h40, fun _ => rfl⟩⟩
      · intro hH
        exact absurd hH (by decide)
      · intro hge
        exact absurd hge h67
      · intro hM
        exact absurd hM (by decide)
      · rintro ⟨hge, -⟩
        exact absurd hge h40

/-- C9, witness: a product with no data at all has no severe signals, so
the Medium threshold characterisation applies to it. -/
theorem confidence_score_range_and_levels_witness :
    (computeProductConfidence
        ⟨none, none, none, none, none, none, none, none, none,
          false, 0, none⟩).level = "Medium"
      ↔ 40 ≤ (computeProductConfidence
            ⟨none, none, none, none, none, none, none, none, none,
              false, 0, none⟩).score
        ∧ (computeProductConfidence
            ⟨none, none, none, none, none, none, none, none, none,
              false, 0, none⟩).score < 67 :=
  ((confidence_score_range_and_levels _).2 (by decide)).2.1

/-! ## Claim C4: the price-bucket classifier -/

/-- C4: for positive sold quantity the classifier agrees with the claim's
description (actual unit price with refund fallback, `gifted` at zero,
`full_price` for unknown retail, then the 0.005 / 0.05 / 0.20 diff-ratio
bands) and always lands in one of the five buckets; for non-positive sold
quantity it returns `None`. -/
theorem price_bucket_classification (s : PBSale) :
    (0 < s.sold_quantity.getD 0 →
      determinePriceBucket s = specPriceBucket s
      ∧ determinePriceBucket s
          ∈ [some "full_price", some "small_discount", some "discount",
             some "wholesale", some "gifted"])
  ∧ (s.sold_quantity.getD 0 ≤ 0 → determinePriceBucket s = none) := by
  constructor
  · intro h
    have hq : ¬(s.sold_quantity.getD 0 ≤ 0) := not_le.mpr h
    have hunit : actualTotalOf s / ((s.sold_quantity.getD 0 : ℤ) : ℚ)
        = (if s.sold_value.getD 0 = 0 then
            |s.return_value.getD 0| / ((s.sold_quantity.getD 0 : ℤ) : ℚ)
          else s.sold_value.getD 0 / ((s.sold_quantity.getD 0 : ℤ) : ℚ)) := by
      unfold actualTotalOf
      by_cases hsv : s.sold_value.getD 0 = 0
      · rw [if_pos hsv, if_pos hsv]
        by_cases hrv : s.return_value.getD 0 = 0
        · rw [if_neg (not_not_intro hrv), hsv, hrv, abs_zero]
        · rw [if_pos hrv]
      · rw [if_neg hsv, if_neg hsv]
    have heq : determinePriceBucket s = specPriceBucket s := by
      simp only [determinePriceBucket, specPriceBucket]
      rw [if_neg hq, if_neg hq, hunit]
    refine ⟨heq, ?_⟩
    rw [heq]
    simp only [specPriceBucket]
    rw [if_neg hq]
    split_ifs <;> simp
  · intro h
    simp only [determinePriceBucket]
    rw [if_pos h]

/-- C4, witness: a sale of 2 units for 192 against retail 100 (unit price
96, diff ratio 0.04). -/
theorem price_bucket_classification_witness :
    determinePriceBucket ⟨some 2, some 192, none, some 100⟩
      = specPriceBucket ⟨some 2, some 192, none, some 100⟩ :=
  ((price_bucket_classification ⟨some 2, some 192, none, some 100⟩).1
    (by decide)).1

/-! ## Claim C5: the restock-alert classifier -/

/-- C5: a product's variants yield `urgent` iff strictly more than 20% of
them have zero current stock (stock counts being non-negative), `normal`
iff it is not urgent and at least 50% of them have `months_left < 3`
(`months_left` being stock over velocity, undefined at velocity 0), and no
alert otherwise. -/
theorem restock_alert_classification (vars : List AnnVar) (_hne : vars ≠ [])
    (hnn : ∀ v ∈ vars, 0 ≤ v.latest_inventory) :
    (classifyRestockLevel vars = some "urgent"
      ↔ ((vars.filter (fun v => decide (v.latest_inventory = 0))).length : ℚ)
          / (vars.length : ℚ) > 1/5)
  ∧ (classifyRestockLevel vars = some "normal"
      ↔ ¬(((vars.filter (fun v => decide (v.latest_inventory = 0))).length : ℚ)
            / (vars.length : ℚ) > 1/5)
        ∧ (lowStockCount vars : ℚ) / (vars.length : ℚ) ≥ 1/2)
  ∧ (classifyRestockLevel vars = none
      ↔ ¬(((vars.filter (fun v => decide (v.latest_inventory = 0))).length : ℚ)
            / (vars.length : ℚ) > 1/5)
        ∧ ¬((lowStockCount vars : ℚ) / (vars.length : ℚ) ≥ 1/2)) := by
  have hzero : outOfStockCount vars
      = (vars.filter (fun v => decide (v.latest_inventory = 0))).length := by
    unfold outOfStockCount
    congr 1
    apply List.filter_congr
    intro v hv
    have h := hnn v hv
    exact decide_eq_decide.mpr (by omega)
  unfold classifyRestockLevel
  rw [hzero]
  split_ifs with h1 h2
  · exact ⟨⟨fun _ => h1, fun _ => rfl⟩,
      ⟨fun hx => absurd hx (by decide), fun hx => absurd h1 hx.1⟩,
      ⟨fun hx => absurd hx (by decide), fun hx => absurd h1 hx.1⟩⟩
  · exact ⟨⟨fun hx => absurd hx (by decide), fun hx => absurd hx h1⟩,
      ⟨fun _ => ⟨h1, h2⟩, fun _ => rfl⟩,
      ⟨fun hx => absurd hx (by decide), fun hx => absurd h2 hx.2⟩⟩
  · exact ⟨⟨fun hx => absurd hx (by decide), fun hx => absurd hx h1⟩,
      ⟨fun hx => absurd hx (by decide), fun hx => absurd hx.2 h2⟩,
      ⟨fun _ => ⟨h1, h2⟩, fun _ => rfl⟩⟩

/-- C5, witness: five variants, three of them with zero stock (60% > 20%),
classify as `urgent` — the spec's example scenario 4. -/
theorem restock_alert_classification_witness :
    classifyRestockLevel [⟨0, 1⟩, ⟨0, 1⟩, ⟨0, 1⟩, ⟨5, 1⟩, ⟨5, 1⟩]
      = some "urgent" :=
  (restock_alert_classification [⟨0, 1⟩, ⟨0, 1⟩, ⟨0, 1⟩, ⟨5, 1⟩, ⟨5, 1⟩]
    (by decide) (by decide)).1.mpr (by with_unfolding_all decide)

/-! ## Claims C1 and C6: the velocity formula, stock-out exclusion and the
fallback window -/

/-- Folding the tally step skips exactly the uncounted weeks. -/
theorem tally_foldl_filter (evs : List Event) (sales : List SaleRow) :
    ∀ (l : List ℤ) (acc : ℤ × ℕ),
      l.foldl
        (fun acc ws =>
          if weekCounted evs sales ws then
            (acc.1 + soldInWeek sales ws, acc.2 + 1)
          else acc) acc
      = (l.filter (weekCounted evs sales)).foldl
          (fun acc ws =>
            if weekCounted evs sales ws then
              (acc.1 + soldInWeek sales ws, acc.2 + 1)
            else acc) acc := by
  intro l
  induction l with
  | nil => intro acc; rfl
  | cons ws t ih =>
    intro acc
    rw [List.foldl_cons, List.filter_cons]
    by_cases hc : weekCounted evs sales ws
    · rw [if_pos hc, hc, if_pos rfl, List.foldl_cons, if_pos hc]
      exact ih _
    · rw [if_neg hc]
      have hco : weekCounted evs sales ws = false := by
        exact Bool.not_eq_true _ ▸ (by simpa using hc)
      rw [hco]
      simp only [Bool.false_eq_true, if_false]
      exact ih _

/-- Folding the tally step over counted weeks accumulates their sold totals
and their number. -/
theorem tally_foldl_counted (evs : List Event) (sales : List SaleRow) :
    ∀ (l : List ℤ) (acc : ℤ × ℕ),
      (∀ ws ∈ l, weekCounted evs sales ws = true) →
      l.foldl
        (fun acc ws =>
          if weekCounted evs sales ws then
            (acc.1 + soldInWeek sales ws, acc.2 + 1)
          else acc) acc
      = (acc.1 + (l.map (soldInWeek sales)).sum, acc.2 + l.length) := by
  intro l
  induction l with
  | nil => intro acc _; simp
  | cons ws t ih =>
    intro acc hall
    rw [List.foldl_cons, if_pos (hall ws (List.mem_cons_self ws t))]
    rw [ih _ fun x hx => hall x (List.mem_cons_of_mem _ hx)]
    simp only [List.map_cons, List.sum_cons, List.length_cons,
      Prod.mk.injEq]
    constructor
    · ring
    · omega

/-- Evaluating `tallyWeeks` explicitly: the sold totals and the number of the counted
weeks. -/
theorem tallyWeeks_eq (evs : List Event) (sales : List SaleRow)
    (l : List ℤ) :
    tallyWeeks evs sales l
      = (((l.filter (weekCounted evs sales)).map (soldInWeek sales)).sum,
        (l.filter (weekCounted evs sales)).length) := by
  unfold tallyWeeks
  rw [tally_foldl_filter]
  rw [tally_foldl_counted]
  · simp
  · intro ws hws
    exact List.of_mem_filter hws

/-- C1 (amended): the speed of a window is (sum of units sold across
counted weeks) / (number of counted weeks) × 365.25/12/7 (0 when no week is
counted), where the counted weeks are those with any sales or with the
*running* inventory — the most recent snapshot count minus subsequent sales,
clamped at 0 — known positive at the week's end (`weekCounted`); and weeks
that are not counted contribute to neither the numerator nor the
denominator, so dropping them from the week axis leaves the tally
unchanged. -/
theorem velocity_formula_and_stockout_exclusion :
    (∀ (snaps : List Snap) (sales : List SaleRow) (today : ℤ) (w : ℕ),
      ((speedForWindow snaps sales today w).periods ≠ 0 →
        (speedForWindow snaps sales today w).speed
          = ((speedForWindow snaps sales today w).total_sold : ℚ)
              / ((speedForWindow snaps sales today w).periods : ℚ)
            * weeksPerMonth)
      ∧ ((speedForWindow snaps sales today w).periods = 0 →
        (speedForWindow snaps sales today w).speed = 0))
  ∧ (∀ (evs : List Event) (sales : List SaleRow) (l : List ℤ),
      tallyWeeks evs sales l
        = tallyWeeks evs sales (l.filter (weekCounted evs sales))) := by
  constructor
  · intro snaps sales today w
    simp only [speedForWindow]
    split_ifs with h0
    · exact ⟨fun hne => absurd rfl hne, fun _ => rfl⟩
    · exact ⟨fun _ => rfl, fun h => absurd h h0⟩
  · intro evs sales l
    unfold tallyWeeks
    exact tally_foldl_filter evs sales l (0, 0)

set_option maxRecDepth 4000 in
/-- C1, witness: a window with one counted week (5 units sold) satisfies
the counted-weeks average formula. -/
theorem velocity_formula_witness :
    (speedForWindow [⟨0, 5⟩] [⟨0, 5⟩] 13 2).speed
      = ((speedForWindow [⟨0, 5⟩] [⟨0, 5⟩] 13 2).total_sold : ℚ)
          / ((speedForWindow [⟨0, 5⟩] [⟨0, 5⟩] 13 2).periods : ℚ)
        * weeksPerMonth :=
  (velocity_formula_and_stockout_exclusion.1 [⟨0, 5⟩] [⟨0, 5⟩] 13 2).1
    (by with_unfolding_all decide)

set_option maxRecDepth 4000 in
/-- C1, counterexample to the claim as stated: a snapshot of 5 on day 0
together with a sale of 5 units that same day, over a two-week window
anchored at day 13. The code's running inventory is 0 from the sale onward,
so only the sale week is counted (speed 5 × 365.25/12/7); under the claim's
"most recent snapshot at or before the week's end" stock presence, the
second week would also be counted (5/2 × 365.25/12/7). -/
theorem velocity_snapshot_presence_cex :
    (calculateVariantSalesSpeedDetails [⟨0, 5⟩] [⟨0, 5⟩] 2 13 4).speed
      ≠ specSpeedForWindow [⟨0, 5⟩] [⟨0, 5⟩] 13 2 := by
  with_unfolding_all decide

theorem soldInWeek_nonneg (sales : List SaleRow) (ws : ℤ)
    (h : ∀ s ∈ sales, 0 < s.sold_quantity) : 0 ≤ soldInWeek sales ws := by
  unfold soldInWeek
  apply List.sum_nonneg
  intro x hx
  obtain ⟨s, hs, rfl⟩ := List.mem_map.mp hx
  have := h s (List.mem_filter.mp hs).1
  omega

theorem soldInWeek_pos (sales : List SaleRow) (ws : ℤ)
    (h : ∀ s ∈ sales, 0 < s.sold_quantity) (s₀ : SaleRow) (hs₀ : s₀ ∈ sales)
    (hw : weekStartOf s₀.date = ws) : 0 < soldInWeek sales ws := by
  unfold soldInWeek
  apply List.sum_pos
  · intro x hx
    obtain ⟨s, hs, rfl⟩ := List.mem_map.mp hx
    exact h s (List.mem_filter.mp hs).1
  · have hmem : s₀ ∈ sales.filter (fun s => weekStartOf s.date == ws) :=
      List.mem_filter.mpr ⟨hs₀, by simp [hw]⟩
    exact List.ne_nil_of_mem (List.mem_map_of_mem _ hmem)

/-- A window with no sale weeks has speed 0 (every counted week, if any,
contributes 0 sold units). -/
theorem speedForWindow_no_sales_in_window (snaps : List Snap)
    (sales : List SaleRow) (today : ℤ) (w : ℕ)
    (h : ∀ s ∈ sales,
      weekStartOf s.date < weekStartOf today - 7 * ((w : ℤ) - 1)) :
    (speedForWindow snaps sales today w).speed = 0 := by
  have hz : ∀ ws ∈ weekStartsList today w, soldInWeek sales ws = 0 := by
    intro ws hws
    unfold weekStartsList at hws
    obtain ⟨i, hi, rfl⟩ := List.mem_map.mp hws
    unfold soldInWeek
    have hemp : sales.filter
        (fun s => weekStartOf s.date
          == (weekStartOf today - 7 * ((w : ℤ) - 1)) + 7 * (i : ℤ)) = [] := by
      rw [List.filter_eq_nil_iff]
      intro s hs
      have h1 := h s hs
      have h2 : (0 : ℤ) ≤ (i : ℤ) := Int.natCast_nonneg i
      simp only [beq_iff_eq]
      omega
    rw [hemp]
    rfl
  simp only [speedForWindow]
  split_ifs with h0
  · rfl
  · have h1 : (tallyWeeks (eventsOf snaps sales) sales
        (weekStartsList today w)).1 = 0 := by
      rw [tallyWeeks_eq]
      apply List.sum_eq_zero
      intro x hx
      obtain ⟨ws, hws, rfl⟩ := List.mem_map.mp hx
      exact hz ws (List.mem_filter.mp hws).1
    show ((tallyWeeks (eventsOf snaps sales) sales
        (weekStartsList today w)).1 : ℚ)
      / ((tallyWeeks (eventsOf snaps sales) sales
        (weekStartsList today w)).2 : ℚ) * weeksPerMonth = 0
    rw [h1]
    norm_num

/-- C6: when the primary-window speed is exactly 0 and the fallback window
is larger (and nonzero), the estimator recomputes over the fallback window
and returns that result; when all of a variant's (positively-sized) sales
fall before the primary window but inside the fallback window, the returned
speed is strictly positive; and when the primary-window speed is nonzero
the fallback recomputation is not applied. -/
theorem velocity_fallback_window (snaps : List Snap) (sales : List SaleRow)
    (today : ℤ) (weeks fb : ℕ) :
    ((speedForWindow snaps sales today weeks).speed = 0 → fb ≠ 0 →
      weeks < fb →
      calculateVariantSalesSpeedDetails snaps sales weeks today fb
        = speedForWindow snaps sales today fb)
  ∧ ((speedForWindow snaps sales today weeks).speed ≠ 0 →
      calculateVariantSalesSpeedDetails snaps sales weeks today fb
        = speedForWindow snaps sales today weeks)
  ∧ (weeks < fb → sales ≠ [] →
      (∀ s ∈ sales, 0 < s.sold_quantity) →
      (∀ s ∈ sales,
        weekStartOf s.date < weekStartOf today - 7 * ((weeks : ℤ) - 1)
        ∧ weekStartOf today - 7 * ((fb : ℤ) - 1) ≤ weekStartOf s.date) →
      0 < (calculateVariantSalesSpeedDetails snaps sales weeks today fb).speed)
    := by
  refine ⟨?_, ?_, ?_⟩
  · intro h1 h2 h3
    simp only [calculateVariantSalesSpeedDetails]
    rw [if_pos ⟨h1, h2, h3⟩]
  · intro h1
    simp only [calculateVariantSalesSpeedDetails]
    rw [if_neg fun hc => h1 hc.1]
  · intro hlt hne h3 h4
    have hz : (speedForWindow snaps sales today weeks).speed = 0 :=
      speedForWindow_no_sales_in_window snaps sales today weeks
        (fun s hs => (h4 s hs).1)
    have hcalc : calculateVariantSalesSpeedDetails snaps sales weeks today fb
        = speedForWindow snaps sales today fb := by
      simp only [calculateVariantSalesSpeedDetails]
      rw [if_pos ⟨hz, by omega, hlt⟩]
    rw [hcalc]
    obtain ⟨s₀, hs₀⟩ := List.exists_mem_of_ne_nil sales hne
    have hsold : 0 < soldInWeek sales (weekStartOf s₀.date) :=
      soldInWeek_pos sales _ h3 s₀ hs₀ rfl
    have hcnt : weekCounted (eventsOf snaps sales) sales
        (weekStartOf s₀.date) = true := by
      simp only [weekCounted]
      rw [Bool.or_eq_true]
      exact Or.inl (decide_eq_true (by omega))
    have hmem : weekStartOf s₀.date ∈ weekStartsList today fb := by
      obtain ⟨a, ha⟩ : ∃ a : ℤ, weekStartOf s₀.date = 7 * a :=
        ⟨s₀.date / 7, by unfold weekStartOf; omega⟩
      obtain ⟨b, hb⟩ : ∃ b : ℤ, weekStartOf today = 7 * b :=
        ⟨today / 7, by unfold weekStartOf; omega⟩
      have h1 := (h4 s₀ hs₀).1
      have h2 := (h4 s₀ hs₀).2
      have hnn : (0 : ℤ) ≤ a - (b - ((fb : ℤ) - 1)) := by omega
      have heq : weekStartOf s₀.date
          = (weekStartOf today - 7 * ((fb : ℤ) - 1))
            + 7 * (((a - (b - ((fb : ℤ) - 1))).toNat : ℕ) : ℤ) := by
        rw [Int.toNat_of_nonneg hnn]
        omega
      rw [heq]
      unfold weekStartsList
      exact List.mem_map_of_mem _ (List.mem_range.mpr (by omega))
    have hfmem : weekStartOf s₀.date
        ∈ (weekStartsList today fb).filter
            (weekCounted (eventsOf snaps sales) sales) :=
      List.mem_filter.mpr ⟨hmem, hcnt⟩
    have hper : 0 < ((weekStartsList today fb).filter
        (weekCounted (eventsOf snaps sales) sales)).length :=
      List.length_pos.mpr (List.ne_nil_of_mem hfmem)
    have htot : 0 < (((weekStartsList today fb).filter
        (weekCounted (eventsOf snaps sales) sales)).map
          (soldInWeek sales)).sum := by
      have hel : soldInWeek sales (weekStartOf s₀.date)
          ∈ ((weekStartsList today fb).filter
              (weekCounted (eventsOf snaps sales) sales)).map
            (soldInWeek sales) :=
        List.mem_map_of_mem _ hfmem
      have hnn : ∀ x ∈ ((weekStartsList today fb).filter
          (weekCounted (eventsOf snaps sales) sales)).map
            (soldInWeek sales), 0 ≤ x := by
        intro x hx
        obtain ⟨ws, _, rfl⟩ := List.mem_map.mp hx
        exact soldInWeek_nonneg sales ws h3
      have hle := List.single_le_sum hnn _ hel
      omega
    simp only [speedForWindow]
    rw [tallyWeeks_eq]
    split_ifs with h0
    · exact absurd h0 (by omega)
    · show 0 < ((((weekStartsList today fb).filter
          (weekCounted (eventsOf snaps sales) sales)).map
            (soldInWeek sales)).sum : ℚ)
        / (((weekStartsList today fb).filter
            (weekCounted (eventsOf snaps sales) sales)).length : ℚ)
        * weeksPerMonth
      apply mul_pos
      · apply div_pos
        · exact_mod_cast htot
        · exact_mod_cast hper
      · norm_num [weeksPerMonth]

set_option maxRecDepth 4000 in
/-- C6, witness: a variant whose only sale (2 units, day 3) falls outside a
2-week window anchored at day 27 but inside the 4-week fallback window gets
a strictly positive speed. -/
theorem velocity_fallback_window_witness :
    0 < (calculateVariantSalesSpeedDetails [] [⟨3, 2⟩] 2 27 4).speed :=
  (velocity_fallback_window [] [⟨3, 2⟩] 27 2 4).2.2 (by decide) (by decide)
    (by decide) (by decide)
